import Mathlib

/-!
Shallow embedding of the fsutils duplicate-detection core
(src/fsutils/DirNode.py, src/fsutils/GenericFile.py, src/fsutils/mimecfg.py).

Modelling conventions:
* byte strings are `List Nat`; a file's `size` (os.path.getsize) is the length
  of its byte content;
* the cryptographic digests (MD5 of the first chunk, the outer SHA-256, and
  pickle.dumps of the hashed dict) are modelled as injective encodings built
  from `Nat.pair`: collision freedom of the real digests is the idealisation
  under which the spec's identity claims are stated;
* the filesystem is a finite map from paths to file data plus a set of
  directory paths; `os.walk` is modelled as the list of strict descendants
  (its listing order is filesystem dependent in the source, so the model fixes
  one order: directories first, then files);
* the worker pool (ThreadPoolHelper.Pool, an external collaborator) is
  modelled per §4.5 of the spec: results arrive in submission order and a
  per-item failure (hashing a path that no longer exists) yields no result;
* Python exceptions become `Option`/explicit result constructors.
-/

set_option maxRecDepth 10000

namespace FsSpec

/-- Byte strings (file contents) are lists of naturals. -/
abbrev Bytes := List Nat

/-- Absolute filesystem paths, as produced by `os.path.abspath`. -/
abbrev FsPath := String

/-- The hash-to-paths table `self.db` (a Python dict, which preserves
insertion order) is modelled as an association list. -/
abbrev Mapping := List (Nat × List FsPath)

/-- Injective encoding of a byte string into a natural number; stands for a
collision-free digest of the bytes. -/
def encodeBytes (l : Bytes) : Nat :=
  l.foldr (fun a b => Nat.pair a b + 1) 0

/-- Injective encoding of a string (used to model pickling path lists). -/
def encodeStr (s : String) : Nat :=
  encodeBytes (s.data.map Char.toNat)

/-- Content of a file on disk: either raw bytes, or the pickled form of a
hash-to-paths mapping as written by `Dir.serialize` via `pickle.dump`. -/
inductive FileData where
  | raw (bytes : Bytes)
  | pickled (db : Mapping)
deriving DecidableEq

/-- Abstract byte image of `pickle.dumps` applied to the mapping. -/
def pickleDump (m : Mapping) : Bytes :=
  m.map (fun e => Nat.pair e.1 (encodeBytes (e.2.map encodeStr)))

/-- The byte content of a file, whichever way it was produced. -/
def FileData.bytes : FileData → Bytes
  | .raw b => b
  | .pickled m => pickleDump m

/-- `File.md5_checksum(size=4096)`: digest of the first `chunk` bytes of the
file (`File._read_chunk` reads `f.read(size)`; the default chunk is 4096 and
every caller uses it). -/
def md5_checksum (data : Bytes) : Nat :=
  encodeBytes (data.take 4096)

/-- The outer digest of `File.sha256`: SHA-256 of
`pickle.dumps({"md5": md5, "size": size})`, modelled as an injective pairing
of the two fields. -/
def sha256Digest (md5 size : Nat) : Nat :=
  Nat.pair md5 size

/-- `File.sha256`: digest of the MD5 checksum of the first 4096 bytes paired
with the file size. -/
def fileSha256 (d : FileData) : Nat :=
  sha256Digest (md5_checksum d.bytes) d.bytes.length

/-- `os.path.basename`: the final path component. -/
def basenameOf (p : FsPath) : String :=
  ((p.data.reverse.takeWhile (fun c => c != '/')).reverse).asString

/-- Root part of `os.path.splitext` on a basename: everything before the last
dot, provided some character before that dot is not itself a dot (CPython's
leading-dot rule). -/
def splitextRootChars (b : List Char) : List Char :=
  match b.reverse.dropWhile (fun c => c != '.') with
  | [] => b
  | _ :: rest => if rest.any (fun c => c != '.') then rest.reverse else b

/-- Extension part of `os.path.splitext` on a basename (includes the dot). -/
def splitextExtChars (b : List Char) : List Char :=
  match b.reverse.dropWhile (fun c => c != '.') with
  | [] => []
  | _ :: rest =>
    if rest.any (fun c => c != '.') then
      ('.' :: (b.reverse.takeWhile (fun c => c != '.')).reverse)
    else []

/-- `File.prefix`: the basename without its extension. -/
def stemOf (b : String) : String :=
  (splitextRootChars b.data).asString

/-- Python `str.lower`, applied character-wise (paths in this model are
ASCII, where `Char.toLower` agrees with Python's lowering). -/
def pyLower (s : String) : String :=
  (s.data.map Char.toLower).asString

/-- The extension computed by `obj`: `os.path.splitext(path.lower())[1]`. -/
def extOfLower (p : FsPath) : String :=
  (splitextExtChars (basenameOf (pyLower p)).data).asString

/-- Python `str.capitalize`: first character upper-cased, the rest
lower-cased. -/
def pyCapitalize (s : String) : String :=
  match s.data with
  | [] => ""
  | c :: rest => (c.toUpper :: rest.map Char.toLower).asString

/-- Whether `p` is a strict descendant of directory `d`
(`p` starts with `d ++ "/"`). -/
def isUnder (d p : FsPath) : Bool :=
  List.isPrefixOf (d.data ++ ['/']) p.data

/-- A snapshot of the filesystem: regular files with their content, and the
set of directory paths. -/
structure FS where
  files : List (FsPath × FileData)
  dirs : List FsPath

/-- Content of the regular file at `p`, if any. -/
def FS.lookup (fs : FS) (p : FsPath) : Option FileData :=
  (fs.files.find? (fun e => e.1 == p)).map (fun e => e.2)

/-- Whether a regular file exists at `p`. -/
def FS.fileExists (fs : FS) (p : FsPath) : Bool :=
  fs.files.any (fun e => e.1 == p)

/-- `os.path.isdir`. -/
def FS.isDir (fs : FS) (p : FsPath) : Bool :=
  fs.dirs.contains p

/-- `os.path.exists`: a regular file or a directory at `p`. -/
def FS.pathExists (fs : FS) (p : FsPath) : Bool :=
  fs.fileExists p || fs.isDir p

/-- Writing (creating or overwriting) the regular file at `p`. -/
def FS.write (fs : FS) (p : FsPath) (d : FileData) : FS :=
  ⟨(p, d) :: fs.files.filter (fun e => e.1 != p), fs.dirs⟩

/-- `os.remove`. -/
def FS.remove (fs : FS) (p : FsPath) : FS :=
  ⟨fs.files.filter (fun e => e.1 != p), fs.dirs⟩

/-- An entry of `Dir._objects`: the path of the node together with the class
tag fixed when the walk created it (`Dir` for directories, a `File` variant
otherwise); `isinstance(x, Dir)` tests consult this tag. -/
structure Entry where
  path : FsPath
  isDirNode : Bool
deriving DecidableEq

/-- The full recursive walk of `Dir.__iter__`: every directory and every
regular file strictly below `d` (os.walk reaches all levels). -/
def walkEntries (fs : FS) (d : FsPath) : List Entry :=
  (fs.dirs.filter (fun p => isUnder d p)).map (fun p => ⟨p, true⟩)
    ++ ((fs.files.map (fun e => e.1)).filter (fun p => isUnder d p)).map
        (fun p => ⟨p, false⟩)

/-- The mutable state a `Dir` node owns: its path, the `_objects` cache and
the in-memory hash table `db`. -/
structure DirState where
  path : FsPath
  objectsCache : List Entry
  db : Mapping
deriving DecidableEq

/-- `Dir.__iter__` / `Dir.objects`: walk the tree when the cache is empty
(`len(self._objects) == 0`), then yield the cached entries. -/
def iterObjects (fs : FS) (st : DirState) : List Entry × DirState :=
  if st.objectsCache.length = 0 then
    (walkEntries fs st.path, ⟨st.path, walkEntries fs st.path, st.db⟩)
  else (st.objectsCache, st)

/-- `Dir.file_objects`: the enumeration filtered to non-`Dir` instances. -/
def fileObjects (fs : FS) (st : DirState) : List Entry × DirState :=
  ((iterObjects fs st).1.filter (fun e => !e.isDirNode), (iterObjects fs st).2)

/-- `Dir.files`: basenames of enumerated entries whose path is not currently a
directory (`os.path.isdir` is re-checked against the live filesystem). -/
def filesNames (fs : FS) (st : DirState) : List String × DirState :=
  (((iterObjects fs st).1.filter (fun e => !(fs.isDir e.path))).map
      (fun e => basenameOf e.path),
   (iterObjects fs st).2)

/-- `Dir.is_empty`: `len(self.files) == 0`. -/
def isEmpty (fs : FS) (st : DirState) : Bool × DirState :=
  ((filesNames fs st).1.length == 0, (filesNames fs st).2)

/-- The file `Dir.serialize` writes: `os.path.join(self.path, f"{self.basename}.pkl")`. -/
def pklPathSave (d : FsPath) : FsPath :=
  d ++ "/" ++ basenameOf d ++ ".pkl"

/-- The file `Dir.load_database` reads: `os.path.join(self.path, self.prefix + ".pkl")`. -/
def pklPathLoad (d : FsPath) : FsPath :=
  d ++ "/" ++ stemOf (basenameOf d) ++ ".pkl"

/-- `Dir.load_database`: unpickle the database file if it exists, else return
an empty table. (`pickle.load` applied to a file that is not a pickled
mapping would raise; no operation of this development ever writes such data
at an index path, and no theorem below exercises that case, which the model
maps to the empty table as well.) -/
def loadDatabase (fs : FS) (d : FsPath) : Mapping :=
  match fs.lookup (pklPathLoad d) with
  | some (.pickled m) => m
  | _ => []

/-- One step of the merge loop of `Dir.serialize`: append the path to an
existing bucket for this hash, or start a new bucket (dict insertion keeps
the bucket's position; a fresh key goes to the end). -/
def dbInsert (db : Mapping) (h : Nat) (p : FsPath) : Mapping :=
  if db.any (fun e => e.1 == h) then
    db.map (fun e => if e.1 == h then (e.1, e.2 ++ [p]) else e)
  else db ++ [(h, [p])]

/-- Merging a stream of pool results into the table. -/
def dbFold (db : Mapping) (rs : List (Nat × FsPath)) : Mapping :=
  rs.foldl (fun d r => dbInsert d r.1 r.2) db

/-- The pool stage of `Dir.serialize`: hash each file object; an entry whose
file no longer exists raises inside the worker and is isolated to an omitted
result (spec §4.3/§4.5), which the `if result:` guard then skips. -/
def hashResults (fs : FS) (entries : List Entry) : List (Nat × FsPath) :=
  entries.filterMap (fun e => (fs.lookup e.path).map (fun d => (fileSha256 d, e.path)))

/-- The rebuild half of `Dir.serialize`: hash every file object into `self.db`
starting from its current contents, dump the result to the save path and
return it. -/
def serializeBuild (fs : FS) (st : DirState) : Mapping × FS × DirState :=
  let fobjs := (fileObjects fs st).1
  let cache := (fileObjects fs st).2.objectsCache
  let db := dbFold st.db (hashResults fs fobjs)
  (db, fs.write (pklPathSave st.path) (.pickled db), ⟨st.path, cache, db⟩)

/-- `Dir.serialize(replace)`: if the save-path pickle exists and `replace` is
true, delete it, clear `self.db` and rebuild; if it exists and `replace` is
false, short-circuit to `load_database`; otherwise rebuild (without clearing
`self.db`). -/
def serialize (fs : FS) (st : DirState) (replace : Bool) : Mapping × FS × DirState :=
  if fs.pathExists (pklPathSave st.path) && replace then
    serializeBuild (fs.remove (pklPathSave st.path)) ⟨st.path, st.objectsCache, []⟩
  else if fs.pathExists (pklPathSave st.path) && !replace then
    (loadDatabase fs st.path, fs, st)
  else
    serializeBuild fs st

/-- `Dir.duplicates(num_keep, refresh)`: every bucket of the (optionally
rebuilt) table whose length exceeds `num_keep`, in table order. -/
def duplicates (fs : FS) (st : DirState) (numKeep : Int) (refresh : Bool) :
    List (List FsPath) × FS × DirState :=
  (((serialize fs st refresh).1.map (fun e => e.2)).filter
      (fun v => decide (numKeep < (v.length : Int))),
   (serialize fs st refresh).2.1, (serialize fs st refresh).2.2)

/-- `Dir.__contains__`: `item.sha256() in self.serialize()` — key membership
in the table returned by a `replace=False` serialize. -/
def dirContains (fs : FS) (st : DirState) (item : FileData) : Bool × FS × DirState :=
  ((serialize fs st false).1.any (fun e => e.1 == fileSha256 item),
   (serialize fs st false).2.1, (serialize fs st false).2.2)

/-- `File.__init__`: fix the absolute path and fail with FileNotFoundError
when the path does not exist. -/
def mkFile (fs : FS) (p : FsPath) : Option FsPath :=
  if fs.pathExists p then some p else none

/-- `Dir.__init__`: `File.__init__` (existence check) followed by loading the
persisted database; no check that the path is a directory is performed. -/
def mkDir (fs : FS) (p : FsPath) : Option DirState :=
  if fs.pathExists p then some ⟨p, [], loadDatabase fs p⟩ else none

/-- The resolved category of a path, restricted to the classes actually
instantiable inside `obj` (`Dir` via the isdir branch; `Img`, `Video`, `Log`
via `getattr`; `File` as the generic fallback). -/
inductive Variant where
  | dir
  | img
  | video
  | log
  | generic
deriving DecidableEq

/-- Outcome of `obj`: a constructed node, the `None` sentinel, or an uncaught
`FileNotFoundError` escaping to the caller. -/
inductive ObjResult where
  | resolved (v : Variant)
  | skipped
  | raised
deriving DecidableEq

/-- `getattr(sys.modules[__name__], name)` for the capitalised category
names: of the candidates only `Img`, `Video` and `Log` are attributes of the
DirNode module (`Metadata` misses `MetaData`, `Script` misses `Exe`, and the
rest have no class at all). -/
def moduleAttr (name : String) : Option Variant :=
  if name == "Img" then some Variant.img
  else if name == "Video" then some Variant.video
  else if name == "Log" then some Variant.log
  else none

/-- The `FILE_TYPES` table of src/fsutils/mimecfg.py, in dict order. -/
def FILE_TYPES : List (String × List String) :=
  [ ("img", [".jpg", ".jpeg", ".png", ".gif", ".nef", ".webp"]),
    ("config",
      [".ini", ".xml", ".json", ".cfg", ".conf", ".yaml", ".yml",
       ".properties", ".bashrc", ".bash_profile", ".zshrc", ".vimrc",
       ".shellrc", ".condarc", ".xbindkeysrc", "kwinrc", "breezerc",
       "kdeglobals", "plasmarc", "kglobalshortcutsrc", "kwinrulesrc"]),
    ("img_other", [".heatmap", ".ico", ".svg", ".heic"]),
    ("metadata",
      [".lrprev", ".xml", ".aae", ".exif", ".iptc", ".tiff", ".xmp", ".pp3"]),
    ("doc", [".pdf", ".doc", ".docx", ".odt", ".pptx"]),
    ("video",
      [".mp4", ".avi", ".mkv", ".wmv", ".webm", ".m4v", ".flv", ".mpg", ".mov"]),
    ("audio",
      [".3ga", ".aac", ".ac3", ".aif", ".aiff", ".alac", ".amr", ".ape",
       ".au", ".dss", ".flac", ".flv", ".m4a", ".m4b", ".m4p", ".mp3",
       ".mpga", ".ogg", ".oga", ".mogg", ".opus", ".qcp", ".tta", ".voc",
       ".wav", ".wma", ".wv"]),
    ("zip",
      [".zip", ".rar", ".tar", ".bz2", ".7z", ".gz", ".xz", ".tar.gz",
       ".tgz", ".zipx"]),
    ("raw", [".cr2", ".raf", ".dng", ".raf"]),
    ("log", [".csv", ".json", ".log"]),
    ("txt", [".txt", ".md", ".out", ".note"]),
    ("script",
      [".py", ".bat", ".sh", ".c", ".cpp", ".h", ".java", ".js", ".ts",
       ".php", ".html", ".css", ".scss", ".ps1"]),
    ("binary",
      [".dat", ".db", ".dbf", ".mdb", ".sqlite", ".sqlite3", ".exe",
       ".mdat", ".thp", ".jar", ".mca", ".package"]),
    ("trash",
      [".directoryStoreFile", ".indexArrays", ".indexBigDates",
       ".indexCompactDirectory", ".indexDirectory", ".indexGroups",
       ".indexHead", ".indexIds", ".indexPositions", ".indexPostings",
       ".indexUpdates", ".shadowIndexGroups", ".shadowIndexHead",
       ".indexPositionTable", ".indexTermIds", ".shadowIndexArrays",
       ".shadowIndexCompactDirectory", ".shadowIndexDirectory",
       ".shadowIndexTermIds", ".updates", ".rmskin", ".GITGUI_MSG",
       ".COMMIT_EDITMSG", ".ORIG_HEAD", ".HEAD", ".MASTER", ".FETCH_HEAD",
       ".packed-refs", ".index", ".commit-graph", ".packs", ".refs",
       ".exclude", ".master", ".remote", ".temp", ".recovery",
       ".description", ".so", ".pyc", ".iso", ".trashinfo", ".torrent",
       ".bin", ".lnk", ".plist", ".shadow", ".loc", ".state", ".37",
       ".cachedmsg", ".git", ".jar", ".dll", ".package", ".ini", ".sha1",
       ".DayZProfile", ".dat_old", ".lock", ".list", ".glob", ".blueprint",
       ".rxr", ".ver1"]),
    ("ignored", []),
    ("dupes", []) ]

/-- The category loop of `obj`. For a matching category whose class exists,
the constructor is tried: on FileNotFoundError the exception is caught,
printed and the loop continues. For a matching category with no class the
AttributeError handler returns `File(path)`, whose own FileNotFoundError is
NOT caught there and escapes. After the loop, `File(path)` is tried once
more with FileNotFoundError mapped to `None`. -/
def objLoop (fs : FS) (p : FsPath) (ext : String) :
    List (String × List String) → ObjResult
  | [] =>
    if fs.pathExists p then ObjResult.resolved Variant.generic
    else ObjResult.skipped
  | (cat, exts) :: rest =>
    if exts.contains ext then
      match moduleAttr (pyCapitalize cat) with
      | some v =>
        if fs.pathExists p then ObjResult.resolved v else objLoop fs p ext rest
      | none =>
        if fs.pathExists p then ObjResult.resolved Variant.generic
        else ObjResult.raised
    else objLoop fs p ext rest

/-- `obj(path)`: directory check first, then the extension table. -/
def obj (fs : FS) (p : FsPath) : ObjResult :=
  if fs.isDir p then ObjResult.resolved Variant.dir
  else objLoop fs p (extOfLower p) FILE_TYPES

/-! Concrete filesystem snapshots used to instantiate and to refute the
claims. `fsDot` is a directory whose own name contains a dot, so that
`File.prefix` ("a") differs from `File.basename` ("a.b"). -/

/-- A directory `/d/a.b` (dotted name) holding one file. -/
def fsDot : FS := ⟨[("/d/a.b/f", .raw [0])], ["/d", "/d/a.b"]⟩

/-- A freshly constructed node on `/d/a.b` (no database file present). -/
def stDot : DirState := ⟨"/d/a.b", [], []⟩

/-- A directory `/w3` (dot-free name) holding one file. -/
def fsW3 : FS := ⟨[("/w3/f", .raw [0])], ["/w3"]⟩

/-- A freshly constructed node on `/w3`. -/
def stW3 : DirState := ⟨"/w3", [], []⟩

/-- A directory `/w4` (dot-free name) holding one file. -/
def fsW4 : FS := ⟨[("/w4/f", .raw [0])], ["/w4"]⟩

/-- A freshly constructed node on `/w4`. -/
def stW4 : DirState := ⟨"/w4", [], []⟩

/-- A dotted-name directory carrying a stale database file at the LOAD path
`/d/a.b/a.pkl` whose only entry points outside the directory. -/
def fsStale : FS :=
  ⟨[("/d/a.b/f", .raw [0]), ("/d/a.b/a.pkl", .pickled [(99, ["/s"])])],
   ["/d", "/d/a.b"]⟩

/-- The node `Dir("/d/a.b")` constructed over `fsStale`: construction loads
the stale database into `self.db`. -/
def stStale : DirState := ⟨"/d/a.b", [], loadDatabase fsStale "/d/a.b"⟩

/-- A directory `/w5` holding one file plus its own save-path database file. -/
def fsW5 : FS :=
  ⟨[("/w5/f", .raw [0]), ("/w5/w5.pkl", .pickled [])], ["/w5"]⟩

/-- A freshly constructed node on `/w5`. -/
def stW5 : DirState := ⟨"/w5", [], []⟩

/-- A directory `/w2` with two one-byte files of equal size and different
content. -/
def fsC2 : FS := ⟨[("/w2/a", .raw [0]), ("/w2/b", .raw [1])], ["/w2"]⟩

/-- A freshly constructed node on `/w2`. -/
def stC2 : DirState := ⟨"/w2", [], []⟩

/-- A directory `/a` with a file of unknown extension and a `.ini` file
(whose category `config` has no module class). -/
def fsObj : FS := ⟨[("/a/x.zzz", .raw [0]), ("/a/y.ini", .raw [0])], ["/a"]⟩

/-- An empty directory `/e`. -/
def fsEmptyDir : FS := ⟨[], ["/e"]⟩

/-- The same directory `/e` after one file appeared. -/
def fsOneFile : FS := ⟨[("/e/f", .raw [0])], ["/e"]⟩

/-- A freshly constructed node on `/e`. -/
def stE : DirState := ⟨"/e", [], []⟩

/-- A directory `/g` holding one file. -/
def fsG : FS := ⟨[("/g/h", .raw [0])], ["/g"]⟩

/-- A freshly constructed node on `/g`. -/
def stG : DirState := ⟨"/g", [], []⟩

/-- A filesystem holding a regular file `/a/f.txt` (and no directory at that
path). -/
def fsFile : FS := ⟨[("/a/f.txt", .raw [0])], ["/a"]⟩

/-- An empty directory `/e10`. -/
def fsE10 : FS := ⟨[], ["/e10"]⟩

/-- A freshly constructed node on `/e10`. -/
def stE10 : DirState := ⟨"/e10", [], []⟩

/-- A directory `/n` holding one file and no database file. -/
def fsN : FS := ⟨[("/n/g", .raw [0])], ["/n"]⟩

/-- A freshly constructed node on `/n`. -/
def stN : DirState := ⟨"/n", [], []⟩

/-! Support lemmas about the encodings, the path helpers, the filesystem
operations and the table-merging loop. -/

/-- The byte encoding standing for a digest is injective. -/
theorem encodeBytes_inj : ∀ {a b : Bytes}, encodeBytes a = encodeBytes b → a = b := by
  intro a
  induction a with
  | nil =>
    intro b h
    cases b with
    | nil => rfl
    | cons y s => simp [encodeBytes] at h
  | cons x t ih =>
    intro b h
    cases b with
    | nil => simp [encodeBytes] at h
    | cons y s =>
      simp only [encodeBytes, List.foldr] at h
      have h2 : Nat.pair x (List.foldr (fun a b => Nat.pair a b + 1) 0 t)
          = Nat.pair y (List.foldr (fun a b => Nat.pair a b + 1) 0 s) :=
        Nat.succ_injective h
      have h3 := congrArg Nat.unpair h2
      simp only [Nat.unpair_pair, Prod.mk.injEq] at h3
      obtain ⟨hx, hts⟩ := h3
      subst hx
      exact congrArg (List.cons x) (ih hts)

/-- Two raw files receive the same content-identity hash exactly when they
agree on the first 4096 bytes and on the size. -/
theorem fileSha256_raw_eq_iff {c1 c2 : Bytes} :
    fileSha256 (FileData.raw c1) = fileSha256 (FileData.raw c2) ↔
      (c1.take 4096 = c2.take 4096 ∧ c1.length = c2.length) := by
  constructor
  · intro h
    have h2 := congrArg Nat.unpair h
    simp only [fileSha256, sha256Digest, md5_checksum, FileData.bytes,
      Nat.unpair_pair, Prod.mk.injEq] at h2
    exact ⟨encodeBytes_inj h2.1, h2.2⟩
  · intro h
    simp only [fileSha256, sha256Digest, md5_checksum, FileData.bytes, h.1, h.2]

/-- A list is a prefix of itself extended on the right. -/
theorem isPrefixOf_append_self (l r : List Char) : List.isPrefixOf l (l ++ r) = true := by
  induction l with
  | nil => simp [List.isPrefixOf]
  | cons a t ih => simp [List.isPrefixOf, ih]

/-- String concatenation acts componentwise on the underlying characters. -/
theorem string_data_append (s t : String) : (s ++ t).data = s.data ++ t.data := rfl

/-- The database file written by `serialize` lies inside the directory it
indexes. -/
theorem isUnder_pklPathSave (d : FsPath) : isUnder d (pklPathSave d) = true := by
  unfold isUnder pklPathSave
  rw [string_data_append, string_data_append, string_data_append]
  have hsl : ("/" : String).data = ['/'] := rfl
  rw [hsl, List.append_assoc]
  exact isPrefixOf_append_self _ _

/-- Looking up a path right after writing it returns the written data. -/
theorem lookup_write_self (fs : FS) (p : FsPath) (d : FileData) :
    (fs.write p d).lookup p = some d := by
  simp [FS.write, FS.lookup, List.find?]

/-- A freshly written path exists. -/
theorem pathExists_write_self (fs : FS) (p : FsPath) (d : FileData) :
    (fs.write p d).pathExists p = true := by
  simp [FS.write, FS.pathExists, FS.fileExists]

/-- Filtering out a key makes it unfindable. -/
theorem find?_filter_ne (l : List (FsPath × FileData)) (p : FsPath) :
    (l.filter (fun e => e.1 != p)).find? (fun e => e.1 == p) = none := by
  induction l with
  | nil => rfl
  | cons a t ih =>
    by_cases h : a.1 = p
    · simp [List.filter_cons, h, ih]
    · simp [List.filter_cons, List.find?, h, ih]

/-- Looking up a path right after removing it fails. -/
theorem lookup_remove_self (fs : FS) (p : FsPath) : (fs.remove p).lookup p = none := by
  simp [FS.remove, FS.lookup, find?_filter_ne]

/-- Every path found inside a bucket of `dbInsert db h0 p0` was either
already in a bucket of that hash or is the path just inserted under exactly
that hash. -/
theorem mem_dbInsert {db : Mapping} {h0 h : Nat} {p0 : FsPath} {ps : List FsPath}
    (hm : (h, ps) ∈ dbInsert db h0 p0) :
    ∀ p ∈ ps, (∃ ps0, (h, ps0) ∈ db ∧ p ∈ ps0) ∨ (h = h0 ∧ p = p0) := by
  intro p hp
  unfold dbInsert at hm
  by_cases hany : db.any (fun e => e.1 == h0) = true
  · rw [if_pos hany] at hm
    obtain ⟨e, he, heq⟩ := List.mem_map.1 hm
    by_cases hkey : e.1 = h0
    · rw [if_pos (by simpa using hkey)] at heq
      have hh : e.1 = h := (Prod.mk.injEq _ _ _ _ ▸ heq).1
      have hps : e.2 ++ [p0] = ps := (Prod.mk.injEq _ _ _ _ ▸ heq).2
      rcases List.mem_append.1 (hps ▸ hp) with hp2 | hp2
      · exact Or.inl ⟨e.2, by rw [← hh]; exact (by simpa using he), hp2⟩
      · exact Or.inr ⟨by rw [← hh, hkey], by simpa using hp2⟩
    · rw [if_neg (by simpa using hkey)] at heq
      exact Or.inl ⟨ps, heq ▸ he, hp⟩
  · rw [if_neg hany] at hm
    rcases List.mem_append.1 hm with hdb | hnew
    · exact Or.inl ⟨ps, hdb, hp⟩
    · have h1 : h = h0 ∧ ps = [p0] := by simpa [Prod.mk.injEq] using hnew
      have hp1 : p ∈ [p0] := h1.2 ▸ hp
      exact Or.inr ⟨h1.1, by simpa using hp1⟩

/-- Every path found inside a bucket of the merged table either was already
in a bucket of that hash in the starting table, or arrived as a pool result
carrying exactly that hash. -/
theorem mem_dbFold :
    ∀ (rs : List (Nat × FsPath)) {db : Mapping} {h : Nat} {ps : List FsPath},
      (h, ps) ∈ dbFold db rs →
      ∀ p ∈ ps, (∃ ps0, (h, ps0) ∈ db ∧ p ∈ ps0) ∨ (h, p) ∈ rs := by
  intro rs
  induction rs with
  | nil =>
    intro db h ps hm p hp
    exact Or.inl ⟨ps, hm, hp⟩
  | cons r t ih =>
    intro db h ps hm p hp
    rcases ih (show (h, ps) ∈ dbFold (dbInsert db r.1 r.2) t from hm) p hp with
      ⟨ps0, hps0, hp0⟩ | hmem
    · rcases mem_dbInsert hps0 p hp0 with h1 | ⟨he, hpe⟩
      · exact Or.inl h1
      · refine Or.inr ?_
        have : (h, p) = r := by rw [he, hpe]
        rw [this]
        exact List.mem_cons_self r t
    · exact Or.inr (List.mem_cons_of_mem r hmem)

/-- Every pool result comes from an enumerated entry whose file content was
still readable, and its hash is the content-identity hash of that content. -/
theorem mem_hashResults {fs : FS} {entries : List Entry} {h : Nat} {p : FsPath}
    (hm : (h, p) ∈ hashResults fs entries) :
    ∃ e ∈ entries, e.path = p ∧ ∃ d, fs.lookup p = some d ∧ h = fileSha256 d := by
  unfold hashResults at hm
  obtain ⟨e, he, heq⟩ := List.mem_filterMap.1 hm
  cases hl : fs.lookup e.path with
  | none => simp [hl] at heq
  | some d =>
    simp only [hl, Option.map_some', Option.some.injEq, Prod.mk.injEq] at heq
    exact ⟨e, he, heq.2, d, heq.2 ▸ hl, heq.1.symm⟩

/-- The rebuild leaves the database file, holding the pickled result, at the
save path. -/
theorem serializeBuild_lookup_save (fs : FS) (st : DirState) :
    (serializeBuild fs st).2.1.lookup (pklPathSave st.path) =
      some (FileData.pickled (serializeBuild fs st).1) := by
  simp [serializeBuild, lookup_write_self]

/-- After a rebuild the save path exists. -/
theorem serializeBuild_pathExists_save (fs : FS) (st : DirState) :
    (serializeBuild fs st).2.1.pathExists (pklPathSave st.path) = true := by
  simp [serializeBuild, pathExists_write_self]

/-- A rebuild does not change the node's path. -/
theorem serializeBuild_path (fs : FS) (st : DirState) :
    (serializeBuild fs st).2.2.path = st.path := rfl

/-- When the directory's basename survives `splitext` unchanged (it contains
no extension-like dot), the load path and the save path coincide, so loading
right after a rebuild returns exactly the table that was just persisted. -/
theorem loadDatabase_serializeBuild (fs : FS) (st : DirState)
    (hname : stemOf (basenameOf st.path) = basenameOf st.path) :
    loadDatabase (serializeBuild fs st).2.1 st.path = (serializeBuild fs st).1 := by
  have hpath : pklPathLoad st.path = pklPathSave st.path := by
    unfold pklPathLoad pklPathSave
    rw [hname]
  unfold loadDatabase
  rw [hpath, serializeBuild_lookup_save]

/-- A `replace=False` serialize right after a rebuild short-circuits to the
loaded file and changes nothing; under the dot-free-name condition the loaded
table is the rebuilt one. -/
theorem serialize_false_after_build (fs0 : FS) (st0 : DirState)
    (hname : stemOf (basenameOf st0.path) = basenameOf st0.path) :
    serialize (serializeBuild fs0 st0).2.1 (serializeBuild fs0 st0).2.2 false
      = ((serializeBuild fs0 st0).1, (serializeBuild fs0 st0).2.1,
          (serializeBuild fs0 st0).2.2) := by
  unfold serialize
  rw [serializeBuild_path, serializeBuild_pathExists_save]
  simp [loadDatabase_serializeBuild fs0 st0 hname]

/-- An entry enumerated by `file_objects` is still enumerated after the cache
established by that first enumeration is carried into a later state, whatever
the filesystem or the `db` field have become meanwhile. -/
theorem mem_fileObjects_stable (fs1 fs2 : FS) (st1 : DirState) (db2 : Mapping) {e : Entry}
    (he : e ∈ (fileObjects fs1 st1).1) :
    e ∈ (fileObjects fs2 ⟨st1.path, (iterObjects fs1 st1).2.objectsCache, db2⟩).1 := by
  by_cases hc : st1.objectsCache.length = 0
  · have eq1 : iterObjects fs1 st1
        = (walkEntries fs1 st1.path, ⟨st1.path, walkEntries fs1 st1.path, st1.db⟩) := by
      simp [iterObjects, hc]
    by_cases hw : (walkEntries fs1 st1.path).length = 0
    · exfalso
      have hnil : walkEntries fs1 st1.path = [] := List.length_eq_zero.1 hw
      have hfo : (fileObjects fs1 st1).1 = [] := by
        simp [fileObjects, eq1, hnil]
      rw [hfo] at he
      exact (List.not_mem_nil e) he
    · have he' : e ∈ (walkEntries fs1 st1.path).filter (fun x => !x.isDirNode) := by
        simpa [fileObjects, eq1] using he
      have eq2 : iterObjects fs2 ⟨st1.path, walkEntries fs1 st1.path, db2⟩
          = (walkEntries fs1 st1.path, ⟨st1.path, walkEntries fs1 st1.path, db2⟩) := by
        simp [iterObjects, hw]
      simpa [fileObjects, eq1, eq2] using he'
  · have eq1 : iterObjects fs1 st1 = (st1.objectsCache, st1) := by
      simp [iterObjects, hc]
    have he' : e ∈ st1.objectsCache.filter (fun x => !x.isDirNode) := by
      simpa [fileObjects, eq1] using he
    have eq2 : iterObjects fs2 ⟨st1.path, st1.objectsCache, db2⟩
        = (st1.objectsCache, ⟨st1.path, st1.objectsCache, db2⟩) := by
      simp [iterObjects, hc]
    simpa [fileObjects, eq1, eq2] using he'

/-! The claims. -/

/-- C1: for every directory state, every integer `k` and every boolean `r`,
the groups returned by `duplicates` are exactly the buckets of the mapping
obtained by `serialize(replace=r)` whose length exceeds `k`; in particular
every returned group is such a bucket with more than `k` members, and no
bucket with at most `k` members is returned. -/
theorem duplicates_overflow_buckets (fs : FS) (st : DirState) (k : Int) (r : Bool)
    (b : List FsPath) :
    b ∈ (duplicates fs st k r).1 ↔
      (b ∈ (serialize fs st r).1.map (fun e => e.2) ∧ k < (b.length : Int)) := by
  simp [duplicates, List.mem_filter]

/-- C2: the content-identity hash of a file is the digest of the checksum of
its first 4096 bytes paired with its size, not a whole-file digest; files of
equal size with identical leading bytes hash equal, files of equal size with
different leading bytes hash differently and never share a bucket of an
index built from an empty table. -/
theorem sha256_size_prefix_digest (fs : FS) (st : DirState) (p1 p2 : FsPath)
    (c1 c2 : Bytes) (hdb : st.db = [])
    (h1 : fs.lookup p1 = some (FileData.raw c1))
    (h2 : fs.lookup p2 = some (FileData.raw c2))
    (hsize : c1.length = c2.length)
    (hdiff : c1.take 4096 ≠ c2.take 4096) :
    (∀ d : Bytes, fileSha256 (FileData.raw d) = sha256Digest (md5_checksum d) d.length) ∧
    (∀ d1 d2 : Bytes, d1.length = d2.length → d1.take 4096 = d2.take 4096 →
        fileSha256 (FileData.raw d1) = fileSha256 (FileData.raw d2)) ∧
    fileSha256 (FileData.raw c1) ≠ fileSha256 (FileData.raw c2) ∧
    (∀ hsh b, (hsh, b) ∈ (serializeBuild fs st).1 → ¬(p1 ∈ b ∧ p2 ∈ b)) := by
  refine ⟨fun d => rfl, ?_, ?_, ?_⟩
  · intro d1 d2 hl ht
    exact fileSha256_raw_eq_iff.2 ⟨ht, hl⟩
  · intro hcl
    exact hdiff (fileSha256_raw_eq_iff.1 hcl).1
  · intro hsh b hb hand
    obtain ⟨hp1, hp2⟩ := hand
    have hb' : (hsh, b) ∈ dbFold ([] : Mapping) (hashResults fs (fileObjects fs st).1) := by
      simpa [serializeBuild, hdb] using hb
    rcases mem_dbFold _ hb' p1 hp1 with ⟨ps0, hps0, _⟩ | m1
    · exact (List.not_mem_nil _) hps0
    rcases mem_dbFold _ hb' p2 hp2 with ⟨ps0, hps0, _⟩ | m2
    · exact (List.not_mem_nil _) hps0
    obtain ⟨e1, _, _, d1, hld1, hh1⟩ := mem_hashResults m1
    obtain ⟨e2, _, _, d2, hld2, hh2⟩ := mem_hashResults m2
    have hd1 : d1 = FileData.raw c1 := Option.some.inj (hld1 ▸ h1 : _)
    have hd2 : d2 = FileData.raw c2 := Option.some.inj (hld2 ▸ h2 : _)
    have hEq : fileSha256 (FileData.raw c1) = fileSha256 (FileData.raw c2) := by
      rw [← hd1, ← hd2, ← hh1, ← hh2]
    exact hdiff (fileSha256_raw_eq_iff.1 hEq).1

/-- Concrete instance of `sha256_size_prefix_digest`: the two one-byte files
of `/w2` hash differently and do not share the bucket holding the first. -/
theorem sha256_size_prefix_digest_witness :
    fileSha256 (FileData.raw [0]) ≠ fileSha256 (FileData.raw [1]) ∧
      ¬(("/w2/a" : FsPath) ∈ (["/w2/a"] : List FsPath)
          ∧ ("/w2/b" : FsPath) ∈ (["/w2/a"] : List FsPath)) := by
  have h := sha256_size_prefix_digest fsC2 stC2 "/w2/a" "/w2/b" [0] [1]
    rfl (by decide) (by decide) rfl (by decide)
  exact ⟨h.2.2.1, h.2.2.2 3 ["/w2/a"] (by decide)⟩

/-- C3 counterexample: on the dotted-name directory `/d/a.b`, a first build
writes `/d/a.b/a.b.pkl` and returns a one-bucket table, while the immediate
second `replace=False` call short-circuits into `load_database`, which reads
the absent `/d/a.b/a.pkl` and returns the empty table instead. -/
theorem serialize_twice_dotted_cex :
    (serialize (serialize fsDot stDot false).2.1 (serialize fsDot stDot false).2.2 false).1
      ≠ (serialize fsDot stDot false).1 := by decide

/-- C3 (amended): when the directory's basename contains no extension-like
dot — so that `File.prefix` equals `File.basename` and the load path matches
the save path — a build followed by a `replace=False` build returns the
identical mapping, with the second call short-circuiting: it performs no
write and no state change at all. -/
theorem serialize_cache_short_circuit (fs : FS) (st : DirState) (b : Bool)
    (hname : stemOf (basenameOf st.path) = basenameOf st.path) :
    serialize (serialize fs st b).2.1 (serialize fs st b).2.2 false
      = ((serialize fs st b).1, (serialize fs st b).2.1, (serialize fs st b).2.2) := by
  cases hp : fs.pathExists (pklPathSave st.path) with
  | true =>
    cases b with
    | false => simp [serialize, hp]
    | true =>
      have e1 : serialize fs st true
          = serializeBuild (fs.remove (pklPathSave st.path))
              ⟨st.path, st.objectsCache, []⟩ := by
        simp [serialize, hp]
      rw [e1]
      exact serialize_false_after_build _ _ hname
  | false =>
    have e1 : serialize fs st b = serializeBuild fs st := by
      simp [serialize, hp]
    rw [e1]
    exact serialize_false_after_build _ _ hname

/-- Concrete instance of `serialize_cache_short_circuit` on the dot-free
directory `/w3`. -/
theorem serialize_cache_short_circuit_witness :
    serialize (serialize fsW3 stW3 false).2.1 (serialize fsW3 stW3 false).2.2 false
      = ((serialize fsW3 stW3 false).1, (serialize fsW3 stW3 false).2.1,
          (serialize fsW3 stW3 false).2.2) :=
  serialize_cache_short_circuit fsW3 stW3 false (by decide)

/-- C4 counterexample: on the dotted-name directory `/d/a.b` the build
persists its table to the save path `a.b.pkl`, but loading the index reads
the load path `a.pkl`, so the loaded mapping is not the persisted one. -/
theorem persist_then_load_dotted_cex :
    loadDatabase (serializeBuild fsDot stDot).2.1 "/d/a.b" ≠ (serializeBuild fsDot stDot).1 := by
  decide

/-- C4 (amended): when the directory's basename contains no extension-like
dot (so the deterministically derived load name agrees with the save name),
persisting the mapping produced by a build and then loading the index
returns a structurally equal mapping. -/
theorem persist_then_load_roundtrip (fs : FS) (st : DirState)
    (hname : stemOf (basenameOf st.path) = basenameOf st.path) :
    loadDatabase (serializeBuild fs st).2.1 st.path = (serializeBuild fs st).1 :=
  loadDatabase_serializeBuild fs st hname

/-- Concrete instance of `persist_then_load_roundtrip` on the dot-free
directory `/w4`. -/
theorem persist_then_load_roundtrip_witness :
    loadDatabase (serializeBuild fsW4 stW4).2.1 "/w4" = (serializeBuild fsW4 stW4).1 :=
  persist_then_load_roundtrip fsW4 stW4 (by decide)

/-- C5 counterexample: over `fsStale` the node constructed on `/d/a.b` loads
the stale table `[(99, ["/s"])]`; because no file exists at the SAVE path
`/d/a.b/a.b.pkl`, `serialize(replace=True)` skips the reset branch, so the
stale path `/s` — not a member of the directory's file enumeration — appears
in a bucket of the rebuilt mapping. -/
theorem rebuild_keeps_stale_entries_cex :
    ((serialize fsStale stStale true).1.any (fun e => e.2.contains "/s")
      && ((fileObjects (serialize fsStale stStale true).2.1
            (serialize fsStale stStale true).2.2).1.all (fun e => e.path != "/s"))) = true := by
  decide

/-- C5 (amended): provided the persisted index exists at the save path,
`serialize(replace=True)` deletes it, discards every previously held entry
(the result is independent of the in-memory table), and every path in every
bucket of the result is a member of the rebuilt node's `file_objects`
enumeration; when no file exists at the save path the in-memory table is NOT
discarded and stale entries survive. -/
theorem serialize_replace_resets_and_covers (fs : FS) (st : DirState)
    (hpkl : fs.pathExists (pklPathSave st.path) = true) :
    (∀ db0 : Mapping,
        (serialize fs (DirState.mk st.path st.objectsCache db0) true).1
          = (serialize fs st true).1) ∧
    (∀ b ∈ (serialize fs st true).1, ∀ p ∈ b.2,
        p ∈ ((fileObjects (serialize fs st true).2.1 (serialize fs st true).2.2).1.map
              Entry.path)) := by
  have e1 : serialize fs st true
      = serializeBuild (fs.remove (pklPathSave st.path)) ⟨st.path, st.objectsCache, []⟩ := by
    simp [serialize, hpkl]
  constructor
  · intro db0
    have e2 : serialize fs (DirState.mk st.path st.objectsCache db0) true
        = serializeBuild (fs.remove (pklPathSave st.path))
            ⟨st.path, st.objectsCache, []⟩ := by
      simp [serialize, hpkl]
    rw [e1, e2]
  · intro b hb p hp
    rw [e1] at hb ⊢
    have hb' : (b.1, b.2) ∈ dbFold ([] : Mapping)
        (hashResults (fs.remove (pklPathSave st.path))
          (fileObjects (fs.remove (pklPathSave st.path))
            ⟨st.path, st.objectsCache, []⟩).1) := by
      simpa [serializeBuild] using hb
    rcases mem_dbFold _ hb' p hp with ⟨ps0, hps0, _⟩ | hres
    · exact absurd hps0 (List.not_mem_nil _)
    obtain ⟨e, heobj, hep, _, _, _⟩ := mem_hashResults hres
    have hstable := mem_fileObjects_stable (fs.remove (pklPathSave st.path))
      ((serializeBuild (fs.remove (pklPathSave st.path)) ⟨st.path, st.objectsCache, []⟩).2.1)
      ⟨st.path, st.objectsCache, []⟩
      ((serializeBuild (fs.remove (pklPathSave st.path)) ⟨st.path, st.objectsCache, []⟩).1)
      heobj
    have hm := List.mem_map_of_mem Entry.path hstable
    rw [hep] at hm
    exact hm

/-- Concrete instance of `serialize_replace_resets_and_covers` on `/w5`,
where the save-path index does exist. -/
theorem serialize_replace_resets_witness :
    (serialize fsW5 (DirState.mk "/w5" [] [(7, ["/zz"])]) true).1
        = (serialize fsW5 stW5 true).1 ∧
    ("/w5/f" : FsPath) ∈ ((fileObjects (serialize fsW5 stW5 true).2.1
        (serialize fsW5 stW5 true).2.2).1.map Entry.path) := by
  have h := serialize_replace_resets_and_covers fsW5 stW5 (by decide)
  exact ⟨h.1 [(7, ["/zz"])], h.2 (3, ["/w5/f"]) (by decide) "/w5/f" (by decide)⟩

/-- For an existing path the category loop always resolves to some variant. -/
theorem objLoop_resolves (fs : FS) (p : FsPath) (ext : String)
    (hex : fs.pathExists p = true) :
    ∀ cats, ∃ v, objLoop fs p ext cats = ObjResult.resolved v := by
  intro cats
  induction cats with
  | nil => exact ⟨Variant.generic, by simp [objLoop, hex]⟩
  | cons ce rest ih =>
    obtain ⟨cat, exts⟩ := ce
    by_cases hm : ext ∈ exts
    · cases hcls : moduleAttr (pyCapitalize cat) with
      | some v => exact ⟨v, by simp [objLoop, hm, hcls, hex]⟩
      | none => exact ⟨Variant.generic, by simp [objLoop, hm, hcls, hex]⟩
    · obtain ⟨v, hv⟩ := ih
      refine ⟨v, ?_⟩
      simpa [objLoop, hm] using hv

/-- For a missing path the category loop ends in the `None` sentinel or in an
uncaught FileNotFoundError — never in a resolved node. -/
theorem objLoop_missing (fs : FS) (p : FsPath) (ext : String)
    (hex : fs.pathExists p = false) :
    ∀ cats, objLoop fs p ext cats = ObjResult.skipped
      ∨ objLoop fs p ext cats = ObjResult.raised := by
  intro cats
  induction cats with
  | nil => exact Or.inl (by simp [objLoop, hex])
  | cons ce rest ih =>
    obtain ⟨cat, exts⟩ := ce
    by_cases hm : ext ∈ exts
    · cases hcls : moduleAttr (pyCapitalize cat) with
      | some v =>
        rcases ih with h | h
        · exact Or.inl (by simp [objLoop, hm, hcls, hex, h])
        · exact Or.inr (by simp [objLoop, hm, hcls, hex, h])
      | none => exact Or.inr (by simp [objLoop, hm, hcls, hex])
    · rcases ih with h | h
      · exact Or.inl (by simpa [objLoop, hm] using h)
      · exact Or.inr (by simpa [objLoop, hm] using h)

/-- When no category matches the extension, the loop falls through to the
generic `File`. -/
theorem objLoop_generic_no_category (fs : FS) (p : FsPath) (ext : String)
    (hex : fs.pathExists p = true) :
    ∀ cats, cats.find? (fun ce => ce.2.contains ext) = none →
      objLoop fs p ext cats = ObjResult.resolved Variant.generic := by
  intro cats
  induction cats with
  | nil => intro _; simp [objLoop, hex]
  | cons ce rest ih =>
    intro hf
    obtain ⟨cat, exts⟩ := ce
    by_cases hm : ext ∈ exts
    · exfalso
      rw [List.find?_cons_of_pos _ (by simpa using hm)] at hf
      exact Option.noConfusion hf
    · rw [List.find?_cons_of_neg _ (by simpa using hm)] at hf
      simpa [objLoop, hm] using ih hf

/-- When the first matching category has no module class, the AttributeError
handler returns the generic `File`. -/
theorem objLoop_generic_classless (fs : FS) (p : FsPath) (ext : String)
    (hex : fs.pathExists p = true) :
    ∀ cats cat exts, cats.find? (fun ce => ce.2.contains ext) = some (cat, exts) →
      moduleAttr (pyCapitalize cat) = none →
      objLoop fs p ext cats = ObjResult.resolved Variant.generic := by
  intro cats
  induction cats with
  | nil => intro cat exts hf _; simp at hf
  | cons ce rest ih =>
    intro cat exts hf hcls
    obtain ⟨cat0, exts0⟩ := ce
    by_cases hm : ext ∈ exts0
    · rw [List.find?_cons_of_pos _ (by simpa using hm)] at hf
      have h1 : cat0 = cat ∧ exts0 = exts := by simpa using hf
      obtain ⟨hcat, _⟩ := h1
      subst hcat
      simp [objLoop, hm, hcls, hex]
    · rw [List.find?_cons_of_neg _ (by simpa using hm)] at hf
      simpa [objLoop, hm] using ih cat exts hf hcls

/-- C6: the resolver is a total function; for every existing path it
resolves to some variant (never an exception), falling back to the generic
file when the lowercase extension matches no category of the table or when
the first matching category has no dedicated class in the module; for a
missing path it signals NotFound — either as the `None` sentinel or as the
FileNotFoundError escaping from the AttributeError handler — and never
resolves. -/
theorem obj_total_resolution (fs : FS) (p : FsPath) :
    (fs.pathExists p = true → ∃ v, obj fs p = ObjResult.resolved v) ∧
    (fs.pathExists p = true → fs.isDir p = false →
      FILE_TYPES.find? (fun ce => ce.2.contains (extOfLower p)) = none →
      obj fs p = ObjResult.resolved Variant.generic) ∧
    (∀ cat exts, fs.pathExists p = true → fs.isDir p = false →
      FILE_TYPES.find? (fun ce => ce.2.contains (extOfLower p)) = some (cat, exts) →
      moduleAttr (pyCapitalize cat) = none →
      obj fs p = ObjResult.resolved Variant.generic) ∧
    (fs.pathExists p = false →
      obj fs p = ObjResult.skipped ∨ obj fs p = ObjResult.raised) := by
  refine ⟨?_, ?_, ?_, ?_⟩
  · intro hex
    by_cases hd : fs.isDir p = true
    · exact ⟨Variant.dir, by simp [obj, hd]⟩
    · rw [Bool.not_eq_true] at hd
      obtain ⟨v, hv⟩ := objLoop_resolves fs p (extOfLower p) hex FILE_TYPES
      exact ⟨v, by simpa [obj, hd] using hv⟩
  · intro hex hd hf
    have h := objLoop_generic_no_category fs p (extOfLower p) hex FILE_TYPES hf
    simpa [obj, hd] using h
  · intro cat exts hex hd hf hcls
    have h := objLoop_generic_classless fs p (extOfLower p) hex FILE_TYPES cat exts hf hcls
    simpa [obj, hd] using h
  · intro hex
    have hd : fs.isDir p = false := by
      have h2 := hex
      simp [FS.pathExists, Bool.or_eq_false_iff] at h2
      exact h2.2
    rcases objLoop_missing fs p (extOfLower p) hex FILE_TYPES with h | h
    · exact Or.inl (by simpa [obj, hd] using h)
    · exact Or.inr (by simpa [obj, hd] using h)

/-- Concrete instances of `obj_total_resolution`: an unknown extension and a
classless category (`.ini` → config) resolve to the generic file, and a
missing path never resolves. -/
theorem obj_total_resolution_witness :
    obj fsObj "/a/x.zzz" = ObjResult.resolved Variant.generic ∧
    obj fsObj "/a/y.ini" = ObjResult.resolved Variant.generic ∧
    (obj fsObj "/a/zzz.jpg" = ObjResult.skipped
      ∨ obj fsObj "/a/zzz.jpg" = ObjResult.raised) := by
  refine ⟨(obj_total_resolution fsObj "/a/x.zzz").2.1 (by decide) (by decide) (by decide),
    (obj_total_resolution fsObj "/a/y.ini").2.2.1 _ _ (by decide) (by decide) rfl (by decide),
    (obj_total_resolution fsObj "/a/zzz.jpg").2.2.2 (by decide)⟩

/-- C7 counterexample: the first enumeration of the empty directory `/e`
yields nothing and leaves the cache empty, so the next enumeration — with no
refresh requested — re-walks the filesystem and yields the file that appeared
in the meantime: the sequences differ. -/
theorem iter_rewalks_when_empty_cex :
    (iterObjects fsOneFile (iterObjects fsEmptyDir stE).2).1
      ≠ (iterObjects fsEmptyDir stE).1 := by decide

/-- C7 (amended): provided the first enumeration yields at least one entry,
the result is cached for the node's lifetime: every later enumeration —
against any filesystem state whatsoever, i.e. without re-walking — returns
the identical sequence and leaves the state unchanged. A first enumeration
that found nothing leaves the cache empty and is re-run on every call. -/
theorem iter_cache_stable (fs fs2 : FS) (st : DirState)
    (h : (iterObjects fs st).1 ≠ []) :
    iterObjects fs2 (iterObjects fs st).2 = iterObjects fs st := by
  by_cases hc : st.objectsCache.length = 0
  · have e1 : iterObjects fs st
        = (walkEntries fs st.path, ⟨st.path, walkEntries fs st.path, st.db⟩) := by
      simp [iterObjects, hc]
    rw [e1] at h ⊢
    have hw : ¬((walkEntries fs st.path).length = 0) := by
      simpa [List.length_eq_zero] using h
    simp [iterObjects, hw]
  · have e1 : iterObjects fs st = (st.objectsCache, st) := by simp [iterObjects, hc]
    rw [e1]
    simp [iterObjects, hc]

/-- Concrete instance of `iter_cache_stable`: after enumerating `/g` once,
a second enumeration over a filesystem in which the file is gone still
returns the cached sequence. -/
theorem iter_cache_stable_witness :
    iterObjects fsEmptyDir (iterObjects fsG stG).2 = iterObjects fsG stG :=
  iter_cache_stable fsG fsEmptyDir stG (by decide)

/-- C8 counterexample: `/a/f.txt` exists and is not a directory, yet
`Dir.__init__` succeeds on it — requesting a directory node for an existing
non-directory is not a hard failure. -/
theorem dir_accepts_nondirectory_cex :
    (mkDir fsFile "/a/f.txt").isSome = true ∧ fsFile.isDir "/a/f.txt" = false := by decide

/-- C8 (amended): node construction fails — with FileNotFoundError
propagating to the caller — exactly when the path does not exist; in
particular an existing non-directory path is accepted by `Dir` construction
without any error. -/
theorem construction_notfound_iff (fs : FS) (p : FsPath) :
    (mkFile fs p = none ↔ fs.pathExists p = false) ∧
    (mkDir fs p = none ↔ fs.pathExists p = false) := by
  constructor
  · unfold mkFile
    by_cases h : fs.pathExists p = true
    · simp [h]
    · rw [Bool.not_eq_true] at h
      simp [h]
  · unfold mkDir
    by_cases h : fs.pathExists p = true
    · simp [h]
    · rw [Bool.not_eq_true] at h
      simp [h]

/-- C9: membership `f in D` is decided purely by whether f's content-identity
hash is a key of the table returned by `serialize(replace=False)` — two items
with equal hash receive the same verdict, whatever their paths — and when no
persisted index exists at the save path, the call leaves behind the fully
built, freshly written index file as a side effect. -/
theorem contains_decided_by_hash_key (fs : FS) (st : DirState) (d1 d2 : FileData)
    (hh : fileSha256 d1 = fileSha256 d2) :
    (dirContains fs st d1).1 = (dirContains fs st d2).1 ∧
    ((dirContains fs st d1).1 = true ↔
        ∃ e ∈ (serialize fs st false).1, e.1 = fileSha256 d1) ∧
    (fs.pathExists (pklPathSave st.path) = false →
      (dirContains fs st d1).2.1.lookup (pklPathSave st.path) =
        some (FileData.pickled (serialize fs st false).1)) := by
  refine ⟨by simp [dirContains, hh], ?_, ?_⟩
  · simp [dirContains, List.any_eq_true]
  · intro hp
    have e1 : serialize fs st false = serializeBuild fs st := by simp [serialize, hp]
    simp [dirContains, e1, serializeBuild_lookup_save]

/-- Concrete instance of `contains_decided_by_hash_key`: a membership test on
`/n` (no persisted index) leaves the pickled full table on disk. -/
theorem contains_decided_by_hash_key_witness :
    (dirContains fsN stN (FileData.raw [0])).2.1.lookup (pklPathSave "/n")
      = some (FileData.pickled (serialize fsN stN false).1) :=
  (contains_decided_by_hash_key fsN stN (FileData.raw [0]) (FileData.raw [0]) rfl).2.2
    (by decide)

/-- C10 counterexample: after building on the empty directory `/e10`, a fresh
re-walk does list the index file `/e10/e10.pkl` as the sole non-directory
child, yet the next `replace=True` build — which deletes the index file
before enumerating — produces an index in which the file does not appear at
all (and a `replace=False` call would short-circuit without hashing
anything). -/
theorem index_file_not_hashed_cex :
    ((walkEntries (serialize fsE10 stE10 false).2.1 "/e10").map Entry.path
        = ["/e10/e10.pkl"])
      ∧ (serialize (serialize fsE10 stE10 false).2.1 (DirState.mk "/e10" [] []) true).1
        = [] := by decide

/-- C10 (amended): a build writes the index file inside the directory itself,
so a directory that was empty is non-empty on a fresh enumeration afterwards;
the index file shows up in later walks, but it is never hashed into the
directory's own next index: a `replace=True` rebuild removes the file before
hashing, so no bucket of the new table contains its path (and `replace=False`
returns the loaded table without hashing at all). -/
theorem serialize_writes_index_inside_dir (fs : FS) (st : DirState)
    (hfresh : st.objectsCache = [])
    (hnopkl : fs.pathExists (pklPathSave st.path) = false)
    (hempty : (isEmpty fs st).1 = true) :
    ((serialize fs st false).2.1.lookup (pklPathSave st.path)
        = some (FileData.pickled (serialize fs st false).1)) ∧
    isUnder st.path (pklPathSave st.path) = true ∧
    (isEmpty (serialize fs st false).2.1 (DirState.mk st.path [] (serialize fs st false).1)).1
        = false ∧
    (∀ db2 : Mapping, ∀ b ∈ (serialize (serialize fs st false).2.1
          (DirState.mk st.path [] db2) true).1,
        pklPathSave st.path ∉ b.2) := by
  have e1 : serialize fs st false = serializeBuild fs st := by simp [serialize, hnopkl]
  refine ⟨by rw [e1]; exact serializeBuild_lookup_save fs st,
    isUnder_pklPathSave st.path, ?_, ?_⟩
  · rw [e1]
    have hdir : ((serializeBuild fs st).2.1).isDir (pklPathSave st.path) = false := by
      have h2 : fs.isDir (pklPathSave st.path) = false := by
        have h3 := hnopkl
        simp [FS.pathExists, Bool.or_eq_false_iff] at h3
        exact h3.2
      simpa [serializeBuild, FS.write, FS.isDir] using h2
    have hmem : (⟨pklPathSave st.path, false⟩ : Entry)
        ∈ walkEntries ((serializeBuild fs st).2.1) st.path := by
      unfold walkEntries
      refine List.mem_append.2 (Or.inr ?_)
      refine List.mem_map.2 ⟨pklPathSave st.path, ?_, rfl⟩
      refine List.mem_filter.2 ⟨?_, isUnder_pklPathSave st.path⟩
      simp [serializeBuild, FS.write]
    have hmem2 : (⟨pklPathSave st.path, false⟩ : Entry)
        ∈ (walkEntries ((serializeBuild fs st).2.1) st.path).filter
            (fun e => !(((serializeBuild fs st).2.1).isDir e.path)) :=
      List.mem_filter.2 ⟨hmem, by simp [hdir]⟩
    have hne : ((walkEntries ((serializeBuild fs st).2.1) st.path).filter
          (fun e => !(((serializeBuild fs st).2.1).isDir e.path))).map
          (fun e => basenameOf e.path) ≠ [] :=
      List.ne_nil_of_mem (List.mem_map_of_mem _ hmem2)
    have e2 : iterObjects ((serializeBuild fs st).2.1)
          (DirState.mk st.path [] (serializeBuild fs st).1)
        = (walkEntries ((serializeBuild fs st).2.1) st.path,
            ⟨st.path, walkEntries ((serializeBuild fs st).2.1) st.path,
              (serializeBuild fs st).1⟩) := by
      simp [iterObjects]
    simp only [isEmpty, filesNames, e2]
    rw [beq_eq_false_iff_ne]
    intro hlen
    exact hne (List.length_eq_zero.1 hlen)
  · intro db2 b hb hpmem
    rw [e1] at hb
    have hex2 : ((serializeBuild fs st).2.1).pathExists (pklPathSave st.path) = true :=
      serializeBuild_pathExists_save fs st
    have e3 : serialize ((serializeBuild fs st).2.1) (DirState.mk st.path [] db2) true
        = serializeBuild (((serializeBuild fs st).2.1).remove (pklPathSave st.path))
            ⟨st.path, [], []⟩ := by
      simp [serialize, hex2]
    rw [e3] at hb
    have hb' : (b.1, b.2) ∈ dbFold ([] : Mapping)
        (hashResults (((serializeBuild fs st).2.1).remove (pklPathSave st.path))
          (fileObjects (((serializeBuild fs st).2.1).remove (pklPathSave st.path))
            ⟨st.path, [], []⟩).1) := by
      simpa [serializeBuild] using hb
    rcases mem_dbFold _ hb' (pklPathSave st.path) hpmem with ⟨ps0, hps0, _⟩ | hres
    · exact absurd hps0 (List.not_mem_nil _)
    obtain ⟨e, _, _, d, hld, _⟩ := mem_hashResults hres
    rw [lookup_remove_self] at hld
    exact Option.noConfusion hld

/-- Concrete instance of `serialize_writes_index_inside_dir` on the empty
directory `/e10`. -/
theorem serialize_writes_index_inside_dir_witness :
    ((serialize fsE10 stE10 false).2.1.lookup (pklPathSave "/e10")
        = some (FileData.pickled (serialize fsE10 stE10 false).1)) ∧
    isUnder "/e10" (pklPathSave "/e10") = true ∧
    (isEmpty (serialize fsE10 stE10 false).2.1
        (DirState.mk "/e10" [] (serialize fsE10 stE10 false).1)).1 = false := by
  have h := serialize_writes_index_inside_dir fsE10 stE10 rfl (by decide) (by decide)
  exact ⟨h.1, h.2.1, h.2.2.1⟩

end FsSpec
